import Mathlib

/-!
Shallow embedding of tipocket's resolve-lock test case
(src/testcase/resolve-lock/resolve_lock.go).  The Go client drives TiKV GC
while injecting transactional locks.  The embedding models the control flow
of the client's functions as pure Lean functions; the external collaborators
(PD timestamp oracle, TiKV region cache and RPC layer) are supplied as
explicit parameters, and the retry loops of the Go code are given explicit
fuel.  Byte strings are modelled as `List Nat`, machine integers as `Nat`
with explicit reduction modulo `2 ^ 64` where the Go code can wrap.
-/

namespace ResolveLock

/-- A lock as the checker observes it: the `TxnID` (owning transaction start
timestamp) and `Key` fields of `tikv.Lock`, built by `tikv.NewLock` from the
`kvrpcpb.LockInfo` entries of a scan-lock response. -/
structure Lock where
  TxnID : Nat
  Key : List Nat
  deriving DecidableEq, Repr

/-! ### Timestamps (getTs, getLockTs; resolve_lock.go lines 562-599) -/

/-- The modulus of Go's `uint64`. -/
def UINT64_MOD : Nat := 2 ^ 64

/-- `atomic.AddUint64(&c.mockLockTs, ^uint64(0))`: adding the all-ones word
is a decrement modulo `2 ^ 64`; the Go call returns the new value. -/
def mockDecrement (m : Nat) : Nat := (m + (UINT64_MOD - 1)) % UINT64_MOD

/-- `getLockTs` (lines 593-599) on state `mockLockTs`: when the mock counter
is zero it falls through to the real oracle (whose answer is the `realTs`
parameter, state unchanged); otherwise it atomically decrements the counter
and returns the new value, which is also the new state. -/
def getLockTs (mockLockTs realTs : Nat) : Nat × Nat :=
  if mockLockTs = 0 then (realTs, mockLockTs)
  else (mockDecrement mockLockTs, mockDecrement mockLockTs)

/-- The mock counter after `k` calls of `getLockTs`, seeded at `safeLockTs`
by `asyncGenerateLocksDuringGC` (line 304).  Since each call returns the new
state, `mockTsAfter safeLockTs (k+1)` is also the value returned by the
`(k+1)`-st call. -/
def mockTsAfter (safeLockTs : Nat) : Nat → Nat
  | 0 => safeLockTs
  | k + 1 => mockDecrement (mockTsAfter safeLockTs k)

/-- One PD `GetTS` attempt: success with a (physical, logical) pair, the
recoverable `io.EOF`/`context.Canceled` class, or any other error. -/
inductive PDResult where
  | ok (physical logical : Nat)
  | eofOrCanceled
  | fatal (e : String)

/-- `oracle.ComposeTS`: physical shifted left by 18 bits, or-ed with the
logical component. -/
def composeTS (physical logical : Nat) : Nat := (physical <<< 18) ||| logical

/-- `getTs` (lines 562-591): retry PD until success, a fatal error, or — on
the recoverable class — until the context is already cancelled or the
backoff budget runs out, in which case it returns timestamp `0` with a nil
error (`Except.ok 0`), the "environment is down, finish the test cleanly"
signal.  `attempts i` is the result of the `i`-th PD call, `budget` the
number of backoffs `bo.Backoff` still allows. -/
def getTsLoop (attempts : Nat → PDResult) (ctxErr : Bool) : Nat → Nat → Except String Nat
  | i, budget =>
    match attempts i with
    | PDResult.ok p l => Except.ok (composeTS p l)
    | PDResult.fatal e => Except.error e
    | PDResult.eofOrCanceled =>
      if ctxErr then Except.ok 0
      else
        match budget with
        | 0 => Except.ok 0
        | b + 1 => getTsLoop attempts ctxErr (i + 1) b

/-! ### The consistency-check scan (CheckData, resolve_lock.go lines 477-553) -/

/-- The `scanLockLimit` constant of `CheckData` (line 478). -/
def scanLockLimit : Nat := 100

/-- The scan-lock request of `CheckData`.  Field names follow
`kvrpcpb.ScanLockRequest`. -/
structure ScanLockRequest where
  Limit : Nat
  MaxVersion : Nat
  StartKey : List Nat
  deriving DecidableEq, Repr

/-- The request built at lines 480-483 (with `StartKey` filled in at line
490 each iteration): the page limit is the literal `10`, not
`scanLockLimit`. -/
def mkScanLockRequest (safePoint : Nat) (startKey : List Nat) : ScanLockRequest :=
  { Limit := 10, MaxVersion := safePoint, StartKey := startKey }

/-- One scan-lock response: the locks returned for the scanned region
together with that region's end key (`loc.EndKey`). -/
structure ScanPage where
  locks : List Lock
  endKey : List Nat
  deriving DecidableEq, Repr

/-- The classification loop at lines 520-527: each lock of the page goes to
the safe list when `lock.TxnID < safeLockTs`, otherwise to the unsafe list;
both lists keep the page order.  Returns (safeLocks, unsafe additions). -/
def classifyLocks (safeLockTs : Nat) : List Lock → List Lock × List Lock
  | [] => ([], [])
  | info :: rest =>
    let cls := classifyLocks safeLockTs rest
    if info.TxnID < safeLockTs then (info :: cls.1, cls.2) else (cls.1, info :: cls.2)

/-- `locksInfo[len(locksInfo)-1].GetKey()` (line 546): the key of the last
lock of the page (`[]` for an empty page, a branch the code only reaches
when the page has at least `scanLockLimit` locks). -/
def lastLockKey : List Lock → List Nat
  | [] => []
  | [l] => l.Key
  | _ :: l :: rest => lastLockKey (l :: rest)

/-- The cursor update at lines 543-547: a short page (fewer than
`scanLockLimit` locks) jumps to the region's end key, otherwise the cursor
becomes the key of the last returned lock. -/
def nextScanKey (locksInfo : List Lock) (regionEndKey : List Nat) : List Nat :=
  if locksInfo.length < scanLockLimit then regionEndKey else lastLockKey locksInfo

/-- The scan loop of `CheckData` (lines 487-551) over a store modelled as a
function from start key to the page the located region returns.  Each
iteration classifies the page, passes the safe locks to
`BatchResolveLocks` (accumulated in `resolvedAcc`), accumulates the unsafe
locks, advances the cursor with `nextScanKey` and stops when the new cursor
is empty (line 548).  Region errors and resolver retries re-run an iteration
with unchanged state in the Go code and are folded away here; `fuel` bounds
the iterations, and the `Bool` of the result records that the loop stopped
via the empty-cursor break rather than by running out of fuel.  Result:
(unsafe locks, locks handed to batch resolution, finished). -/
def checkDataLoop (store : List Nat → ScanPage) (safeLockTs : Nat) :
    Nat → List Nat → List Lock → List Lock → List Lock × List Lock × Bool
  | 0, _, unsafeAcc, resolvedAcc => (unsafeAcc, resolvedAcc, false)
  | fuel + 1, key, unsafeAcc, resolvedAcc =>
    let page := store key
    let cls := classifyLocks safeLockTs page.locks
    let unsafeAcc2 := unsafeAcc ++ cls.2
    let resolvedAcc2 := resolvedAcc ++ cls.1
    let key2 := nextScanKey page.locks page.endKey
    if key2.length = 0 then (unsafeAcc2, resolvedAcc2, true)
    else checkDataLoop store safeLockTs fuel key2 unsafeAcc2 resolvedAcc2

/-- `CheckData` starts the scan from the empty key with nothing accumulated
(lines 485-486). -/
def checkData (store : List Nat → ScanPage) (safeLockTs fuel : Nat) :
    List Lock × List Lock × Bool :=
  checkDataLoop store safeLockTs fuel [] [] []

/-! ### The lock writer (lockBatch, resolve_lock.go lines 387-475) -/

/-- The `maxBatchSize` constant of `lockBatch` (line 388): 1 MiB. -/
def maxBatchSize : Nat := 1024 * 1024

/-- A prewrite mutation (Op is always `Put` in this client, so only key and
value are modelled). -/
structure Mutation where
  key : List Nat
  value : List Nat
  deriving DecidableEq, Repr

/-- The one-byte value `[]byte{'v'}` written with every lock (line 419). -/
def vByte : List Nat := [118]

/-- The mutation-building loop at lines 413-430: walk the keys in order,
stop at the first key outside the primary key's region (`loc.Contains`);
after appending a mutation add its key and value sizes to `batchSize` and
stop once the accumulated size has reached `maxBatchSize` — note the size
check runs after the append, so the final mutation may carry the total to or
past the budget. -/
def buildMutationsGo (contains : List Nat → Bool) : List (List Nat) → Nat → List Mutation
  | [], _ => []
  | k :: rest, batchSize =>
    if contains k then
      let m : Mutation := { key := k, value := vByte }
      let batchSize2 := batchSize + k.length + vByte.length
      if maxBatchSize ≤ batchSize2 then [m]
      else m :: buildMutationsGo contains rest batchSize2
    else []

/-- The mutations of one prewrite request, starting from `batchSize = 0`. -/
def buildMutations (contains : List Nat → Bool) (keys : List (List Nat)) : List Mutation :=
  buildMutationsGo contains keys 0

/-- Total byte size of a batch as `lockBatch` accumulates it: key bytes plus
value bytes per mutation (line 426). -/
def mutationsSize (ms : List Mutation) : Nat :=
  (ms.map fun m => m.key.length + m.value.length).sum

/-- The environment one `lockBatch` attempt sees: the results of
`LocateKey`, `getLockTs`, `SendReq`, and the fields of the prewrite
response.  `contains` is the membership test of the region located for the
primary key. -/
structure AttemptEnv where
  locateErr : Option String
  startTs : Except String Nat
  sendErr : Option String
  regionErr : Option String
  respMissing : Bool
  keyErrors : List String
  contains : List Nat → Bool

/-- The retry loop of `lockBatch` (lines 395-474).  `env i` is what the
`i`-th attempt observes.  In order: `LocateKey` error (return), `getLockTs`
error (return) or zero timestamp (return `(0, nil)`), build the mutations
and return `(0, nil)` when none fit, `SendReq` error (return), region error
(backoff and retry — `fuel` bounds the retries, standing for the backoff
budget), missing response body (error), per-key errors (log, zero the count,
return nil), else return the mutation count with nil error. -/
def lockBatchLoop (env : Nat → AttemptEnv) (keys : List (List Nat)) :
    Nat → Nat → Except String Nat
  | _, 0 => Except.error "backoffer.maxSleep exceeded"
  | i, fuel + 1 =>
    let e := env i
    match e.locateErr with
    | some msg => Except.error msg
    | none =>
      match e.startTs with
      | Except.error msg => Except.error msg
      | Except.ok startTs =>
        if startTs = 0 then Except.ok 0
        else
          let lockedKeys := (buildMutations e.contains keys).length
          if lockedKeys = 0 then Except.ok 0
          else
            match e.sendErr with
            | some msg => Except.error msg
            | none =>
              match e.regionErr with
              | some _ => lockBatchLoop env keys (i + 1) fuel
              | none =>
                if e.respMissing then Except.error "response body missing"
                else if e.keyErrors.length ≠ 0 then Except.ok 0
                else Except.ok lockedKeys

/-- `lockBatch`: an empty key list locks nothing (lines 390-392), otherwise
run the attempt loop. -/
def lockBatch (env : Nat → AttemptEnv) (keys : List (List Nat)) (fuel : Nat) :
    Except String Nat :=
  if keys.length = 0 then Except.ok 0 else lockBatchLoop env keys 0 fuel

/-! ### The lock generator (lock and generateLocks, lines 316-385) -/

/-- The `txnSize` constant of `lock` (line 369). -/
def txnSize : Nat := 5

/-- `tablecodec.EncodeRowKeyWithHandle` is an external collaborator; it is
modelled as the two-component key (tableID, handle).  Only its role as a key
and its (small, constant) length matter to the client's control flow. -/
def encodeRowKeyWithHandle (tableID handleID : Nat) : List Nat :=
  [tableID, handleID]

/-- The loop of `lock` (lines 371-383): append the key for handle
`handleID + i`; once `txnSize` keys are buffered or `i` is the last index,
flush them through `batchFn` (the call to `lockBatch`), propagating its
error as `(0, err)` and otherwise adding its count.  `remaining` counts the
iterations left (`limit - i`), so the loop runs for `i = 0 .. limit - 1`. -/
def lockLoop (batchFn : List (List Nat) → Except String Nat)
    (tableID handleID limit : Nat) :
    Nat → Nat → List (List Nat) → Nat → Except String Nat
  | 0, _, _, locked => Except.ok locked
  | remaining + 1, i, keys, locked =>
    let keys2 := keys ++ [encodeRowKeyWithHandle tableID (handleID + i)]
    if txnSize ≤ keys2.length ∨ i = limit - 1 then
      match batchFn keys2 with
      | Except.error e => Except.error e
      | Except.ok cnt => lockLoop batchFn tableID handleID limit remaining (i + 1) [] (locked + cnt)
    else lockLoop batchFn tableID handleID limit remaining (i + 1) keys2 locked

/-- `lock` (lines 368-385): run the loop for `limit` iterations from an
empty buffer and a zero count. -/
def lockFn (batchFn : List (List Nat) → Except String Nat)
    (tableID handleID limit : Nat) : Except String Nat :=
  lockLoop batchFn tableID handleID limit limit 0 [] 0

/-- A task of `generateLocks` (lines 317-321). -/
structure GTask where
  tableID : Nat
  handleID : Nat
  limit : Nat
  deriving DecidableEq, Repr

/-- Which case of the `select` at lines 347-352 fires in one iteration of
the dispatch loop: the context-done channel or the pacing ticker. -/
inductive SelCase where
  | ctxDone
  | tick
  deriving DecidableEq, Repr

/-- The task-dispatch loop of `generateLocks` (lines 346-353), one iteration
per table.  `sched i` says which `select` case fires on iteration `i`.  In
the Go source the `break` in the `ctx.Done()` case terminates only the
`select` statement, not the surrounding `range` loop, so after a cancelled
iteration the loop still continues with the next table — and a later
iteration whose `select` picks the ticker case still enqueues its task. -/
def dispatchLoop (handleID limit : Nat) (sched : Nat → SelCase) :
    List Nat → Nat → List GTask
  | [], _ => []
  | tid :: rest, i =>
    match sched i with
    | SelCase.ctxDone => dispatchLoop handleID limit sched rest (i + 1)
    | SelCase.tick =>
      { tableID := tid, handleID := handleID, limit := limit } ::
        dispatchLoop handleID limit sched rest (i + 1)

/-- The tasks enqueued on `taskCh` during one `generateLocks` call, starting
at iteration 0. -/
def dispatchedTasks (tableIDs : List Nat) (handleID limit : Nat)
    (sched : Nat → SelCase) : List GTask :=
  dispatchLoop handleID limit sched tableIDs 0

/-- One worker goroutine (lines 330-343): consume the assigned tasks in
order, stopping at the first `lock` error with result `(0, err)`, otherwise
accumulating the locked counts and finishing with `(locked, nil)`. -/
def workerRun (batchFn : List (List Nat) → Except String Nat) :
    List GTask → Nat → Nat × Option String
  | [], locked => (locked, none)
  | t :: rest, locked =>
    match lockFn batchFn t.tableID t.handleID t.limit with
    | Except.error e => (0, some e)
    | Except.ok cnt => workerRun batchFn rest (locked + cnt)

/-- The aggregation loop of `generateLocks` (lines 356-364) over the worker
results in channel order: sum the counts, keep the first error. -/
def aggregate : List (Nat × Option String) → Nat × Option String
  | [] => (0, none)
  | (l, e) :: rest =>
    let r := aggregate rest
    (l + r.1, match e with | some m => some m | none => r.2)

/-! ### The round controller (Start, resolve_lock.go lines 193-282) -/

/-- The transient-error test of the GC retry loop (lines 245-246): the error
text mentions region unavailability or a lock met during the scan. -/
def isTransientGCError (e : String) : Bool :=
  (e.containsSubstr "region unavailable" || e.containsSubstr "Region is unavailable")
    || e.containsSubstr "unexpected scanlock error: error:<locked"

/-- How the GC invocation loop at lines 240-254 ends: a successful
`resolveLocks` with its `physicalUsed` flag, an immediate return on a
non-transient error, or five attempts all failed (the check at line 251). -/
inductive GCPhaseResult where
  | ok (physicalUsed : Bool)
  | fatal (e : String)
  | exhausted (e : String)
  deriving DecidableEq, Repr

/-- The loop `for i := 0; i < 5; i++` at lines 240-250: run attempt `i`,
break on success, return at once on a non-transient error, else keep the
error and retry.  `lastErr` is the error still held in `err` when the
attempt budget runs out. -/
def gcAttemptGo (attempts : Nat → Except String Bool) :
    Nat → Nat → String → GCPhaseResult
  | _, 0, lastErr => GCPhaseResult.exhausted lastErr
  | i, n + 1, _ =>
    match attempts i with
    | Except.ok used => GCPhaseResult.ok used
    | Except.error e =>
      if isTransientGCError e then gcAttemptGo attempts (i + 1) n e
      else GCPhaseResult.fatal e

/-- The whole GC phase: five attempts starting at index 0.  (The initial
`lastErr` is never reported: `exhausted` is only reached after at least one
failed attempt overwrote it, because on entry the budget is positive.) -/
def gcPhase (attempts : Nat → Except String Bool) : GCPhaseResult :=
  gcAttemptGo attempts 0 5 ""

/-- Everything one round of `Start` observes from the outside world, per
round number: the top-of-loop `ctx.Done()` check, the two `getTs` calls
(line 208 and line 231), the `generateLocks` result, the `resolveLocks`
attempt results, and the `CheckData` result.  The 5-second settle sleep and
the async generator spawned at line 228 (joined again at line 269) act only
through timing and shared timestamps, which the claims below do not touch;
they have no footprint in this state-level model. -/
structure RoundEnv where
  ctxDone : Nat → Bool
  ts1 : Nat → Except String Nat
  genLocks : Nat → Except String Nat
  ts2 : Nat → Except String Nat
  gcAttempts : Nat → Nat → Except String Bool
  checkDataRes : Nat → List Lock × Option String

/-- How `Start` leaves its loop: `return nil` (clean) or an error. -/
inductive ExitKind where
  | clean
  | fail (msg : String)
  deriving DecidableEq, Repr

/-- One iteration of the `Start` loop (lines 200-281) at `loopNum` with the
`lastGreenGC` state (initialised to `-1` at line 199): either an exit from
the function, or the `lastGreenGC` value carried into the next round.
The branch marked BUG reproduces line 234 verbatim: after assigning
`c.safePoint` from the second `getTs`, the code tests `ts` — the first
round timestamp, already known to be non-zero — instead of the new value,
so a zero safe point is never caught here. -/
def startStep (enableGreenGC : Bool) (env : RoundEnv) (loopNum : Nat)
    (lastGreenGC : Int) : ExitKind ⊕ Int :=
  if env.ctxDone loopNum then Sum.inl ExitKind.clean
  else
    match env.ts1 loopNum with
    | Except.error e => Sum.inl (ExitKind.fail e)
    | Except.ok ts =>
      if ts = 0 then Sum.inl ExitKind.clean
      else
        match env.genLocks loopNum with
        | Except.error e => Sum.inl (ExitKind.fail e)
        | Except.ok _locked =>
          match env.ts2 loopNum with
          | Except.error e => Sum.inl (ExitKind.fail e)
          | Except.ok _safePoint =>
            -- BUG (line 234): tests `ts`, not the just-assigned safe point.
            if ts = 0 then Sum.inl ExitKind.clean
            else
              match gcPhase (env.gcAttempts loopNum) with
              | GCPhaseResult.fatal e => Sum.inl (ExitKind.fail e)
              | GCPhaseResult.exhausted e => Sum.inl (ExitKind.fail e)
              | GCPhaseResult.ok greenGCUsed =>
                let lastGreenGC2 := if greenGCUsed = true then (loopNum : Int) else lastGreenGC
                if enableGreenGC = true ∧ (loopNum : Int) - lastGreenGC2 > 50 then
                  Sum.inl (ExitKind.fail "green gc failed to run for over 50 times")
                else
                  let cd := env.checkDataRes loopNum
                  if cd.1.length ≠ 0 then
                    Sum.inl (ExitKind.fail "green GC check data failed")
                  else
                    match cd.2 with
                    | some e => Sum.inl (ExitKind.fail e)
                    | none => Sum.inr lastGreenGC2

/-- The `Start` loop run for at most `fuel` rounds from round `loopNum` and
state `lastGreenGC`: `some exit` when a round leaves the loop, `none` when
the fuel runs out first. -/
def startLoop (enableGreenGC : Bool) (env : RoundEnv) :
    Nat → Nat → Int → Option ExitKind
  | 0, _, _ => none
  | fuel + 1, loopNum, lastGreenGC =>
    match startStep enableGreenGC env loopNum lastGreenGC with
    | Sum.inl ek => some ek
    | Sum.inr lg => startLoop enableGreenGC env fuel (loopNum + 1) lg

/-- A round environment with fixed, error-free collaborator answers:
timestamps `t` and `sp`, `g` generated locks, every `resolveLocks` attempt
answering `physicalUsed = used`, and `CheckData` returning `cd`. -/
def mkRoundEnv (t sp g : Nat) (used : Bool) (cd : List Lock × Option String) : RoundEnv :=
  { ctxDone := fun _ => false
  , ts1 := fun _ => Except.ok t
  , genLocks := fun _ => Except.ok g
  , ts2 := fun _ => Except.ok sp
  , gcAttempts := fun _ _ => Except.ok used
  , checkDataRes := fun _ => cd }

/-! ### Concrete instances used to exercise the model -/

/-- A round whose safe-point acquisition (the second `getTs`) reports the
environment down with timestamp `0`, everything else healthy: first
timestamp 1, 15 locks generated, logical GC, clean check. -/
def envC4 : RoundEnv := mkRoundEnv 1 0 15 false ([], none)

/-- Rounds in which `resolveLocks` always succeeds with
`physicalUsed = false` and everything else is healthy. -/
def envC5 : RoundEnv := mkRoundEnv 1 2 15 false ([], none)

/-- A dispatch schedule in which the `select` observes `ctx.Done()` on the
first iteration and the ticker case fires on the second — possible in Go
because a closed done channel stays ready while the ticker keeps firing, and
`select` picks among ready cases. -/
def schedC6 : Nat → SelCase :=
  fun i => if i = 0 then SelCase.ctxDone else SelCase.tick

/-- A store that accepts every lock write: the region holds every key, the
oracle answers timestamp 1, and the prewrite response is error-free. -/
def acceptAllEnv : AttemptEnv :=
  { locateErr := none
  , startTs := Except.ok 1
  , sendErr := none
  , regionErr := none
  , respMissing := false
  , keyErrors := []
  , contains := fun _ => true }

/-- `lockBatch` against the accept-all store, with one attempt of fuel. -/
def acceptAllBatch (keys : List (List Nat)) : Except String Nat :=
  lockBatch (fun _ => acceptAllEnv) keys 1

/-- An attempt whose prewrite response carries a per-key conflict error and
no other failure. -/
def envC7 : AttemptEnv :=
  { locateErr := none
  , startTs := Except.ok 7
  , sendErr := none
  , regionErr := none
  , respMissing := false
  , keyErrors := ["key is locked"]
  , contains := fun _ => true }

/-- A region test that holds every key. -/
def containsAll : List Nat → Bool := fun _ => true

/-- A single key as large as the whole batch budget. -/
def hugeKey : List Nat := List.replicate maxBatchSize 0

/-- A store whose every page holds one safe and one unsafe lock and ends at
the empty region end key. -/
def storeC1 : List Nat → ScanPage :=
  fun _ => { locks := [{ TxnID := 3, Key := [1] }, { TxnID := 12, Key := [2] }], endKey := [] }

/-- A store whose every page is short (one lock) with an empty region end
key. -/
def storeC3 : List Nat → ScanPage :=
  fun _ => { locks := [{ TxnID := 5, Key := [1] }], endKey := [] }

/-! ### Supporting lemmas -/

theorem mockDecrement_eq {m : Nat} (h0 : 0 < m) (hW : m < UINT64_MOD) :
    mockDecrement m = m - 1 := by
  unfold mockDecrement
  have h1 : m + (UINT64_MOD - 1) = (m - 1) + UINT64_MOD := by
    have : 1 ≤ UINT64_MOD := by norm_num [UINT64_MOD]
    omega
  rw [h1, Nat.add_mod_right]
  exact Nat.mod_eq_of_lt (by omega)

theorem mockTsAfter_eq {s : Nat} (hW : s < UINT64_MOD) :
    ∀ k, k ≤ s → mockTsAfter s k = s - k := by
  intro k
  induction k with
  | zero => intro _; rfl
  | succ n ih =>
    intro hn
    have hrec : mockTsAfter s n = s - n := ih (by omega)
    show mockDecrement (mockTsAfter s n) = s - (n + 1)
    rw [hrec, mockDecrement_eq (by omega) (by omega)]
    omega

theorem classifyLocks_eq_filter (ts : Nat) (info : List Lock) :
    classifyLocks ts info =
      (info.filter fun l => decide (l.TxnID < ts),
       info.filter fun l => !decide (l.TxnID < ts)) := by
  induction info with
  | nil => rfl
  | cons a rest ih =>
    simp only [classifyLocks, ih, List.filter_cons]
    by_cases h : a.TxnID < ts
    · simp [h]
    · simp [h]

theorem checkDataLoop_succ (store : List Nat → ScanPage) (ts fuel : Nat)
    (key : List Nat) (u r : List Lock) :
    checkDataLoop store ts (fuel + 1) key u r =
      if (nextScanKey (store key).locks (store key).endKey).length = 0 then
        (u ++ (classifyLocks ts (store key).locks).2,
         r ++ (classifyLocks ts (store key).locks).1, true)
      else
        checkDataLoop store ts fuel (nextScanKey (store key).locks (store key).endKey)
          (u ++ (classifyLocks ts (store key).locks).2)
          (r ++ (classifyLocks ts (store key).locks).1) := rfl

theorem checkDataLoop_acc_all (store : List Nat → ScanPage) (ts : Nat) :
    ∀ (fuel : Nat) (key : List Nat) (u r : List Lock),
      u.all (fun l => decide (ts ≤ l.TxnID)) = true →
      r.all (fun l => decide (l.TxnID < ts)) = true →
      (checkDataLoop store ts fuel key u r).1.all (fun l => decide (ts ≤ l.TxnID)) = true ∧
      (checkDataLoop store ts fuel key u r).2.1.all (fun l => decide (l.TxnID < ts)) = true := by
  intro fuel
  induction fuel with
  | zero => intro key u r hu hr; exact ⟨hu, hr⟩
  | succ n ih =>
    intro key u r hu hr
    have hu2 : (u ++ (classifyLocks ts (store key).locks).2).all
        (fun l => decide (ts ≤ l.TxnID)) = true := by
      rw [classifyLocks_eq_filter]
      rw [List.all_append, hu, Bool.true_and, List.all_eq_true]
      intro l hl
      have := (List.mem_filter.mp hl).2
      simp only [Bool.not_eq_true', decide_eq_false_iff_not, Nat.not_lt] at this
      simpa using this
    have hr2 : (r ++ (classifyLocks ts (store key).locks).1).all
        (fun l => decide (l.TxnID < ts)) = true := by
      rw [classifyLocks_eq_filter]
      rw [List.all_append, hr, Bool.true_and, List.all_eq_true]
      intro l hl
      exact (List.mem_filter.mp hl).2
    rw [checkDataLoop_succ]
    by_cases hk : (nextScanKey (store key).locks (store key).endKey).length = 0
    · rw [if_pos hk]; exact ⟨hu2, hr2⟩
    · rw [if_neg hk]; exact ih _ _ _ hu2 hr2

theorem lastLockKey_ne_nil :
    ∀ (locks : List Lock), (∀ l ∈ locks, l.Key ≠ []) → locks ≠ [] →
      lastLockKey locks ≠ [] := by
  intro locks
  induction locks with
  | nil => intro _ h; exact absurd rfl h
  | cons a rest ih =>
    intro hall _
    cases rest with
    | nil => exact hall a (by simp)
    | cons b tail =>
      show lastLockKey (b :: tail) ≠ []
      exact ih (fun l hl => hall l (List.mem_cons_of_mem a hl)) (by simp)

theorem buildMutationsGo_keys_take (contains : List Nat → Bool) :
    ∀ (keys : List (List Nat)) (b : Nat),
      (buildMutationsGo contains keys b).map Mutation.key =
        keys.take (buildMutationsGo contains keys b).length := by
  intro keys
  induction keys with
  | nil => intro b; rfl
  | cons k rest ih =>
    intro b
    simp only [buildMutationsGo]
    by_cases hc : contains k = true
    · rw [if_pos hc]
      by_cases hb : maxBatchSize ≤ b + k.length + vByte.length
      · rw [if_pos hb]; rfl
      · rw [if_neg hb]
        simp only [List.map_cons, List.length_cons, List.take_succ_cons]
        rw [ih]
    · rw [if_neg hc]; rfl

theorem buildMutationsGo_contains (contains : List Nat → Bool) :
    ∀ (keys : List (List Nat)) (b : Nat),
      (buildMutationsGo contains keys b).all (fun m => contains m.key) = true := by
  intro keys
  induction keys with
  | nil => intro b; rfl
  | cons k rest ih =>
    intro b
    simp only [buildMutationsGo]
    by_cases hc : contains k = true
    · rw [if_pos hc]
      by_cases hb : maxBatchSize ≤ b + k.length + vByte.length
      · rw [if_pos hb]; simpa using hc
      · rw [if_neg hb]; simp only [List.all_cons, ih, Bool.and_true]; exact hc
    · rw [if_neg hc]; rfl

theorem buildMutationsGo_size (contains : List Nat → Bool) :
    ∀ (keys : List (List Nat)) (b : Nat), b < maxBatchSize →
      b + mutationsSize (buildMutationsGo contains keys b).dropLast < maxBatchSize := by
  intro keys
  induction keys with
  | nil =>
    intro b hb
    simpa [buildMutationsGo, mutationsSize] using hb
  | cons k rest ih =>
    intro b hb
    simp only [buildMutationsGo]
    by_cases hc : contains k = true
    · rw [if_pos hc]
      by_cases hsz : maxBatchSize ≤ b + k.length + vByte.length
      · rw [if_pos hsz]
        simpa [mutationsSize] using hb
      · rw [if_neg hsz]
        have hb2 : b + k.length + vByte.length < maxBatchSize := by omega
        have hrec := ih (b + k.length + vByte.length) hb2
        cases htail : buildMutationsGo contains rest (b + k.length + vByte.length) with
        | nil => simpa [mutationsSize] using hb
        | cons m0 ms =>
          rw [htail] at hrec
          rw [List.dropLast_cons_of_ne_nil (by simp)]
          simp only [mutationsSize, List.map_cons, List.sum_cons] at hrec ⊢
          omega
    · rw [if_neg hc]
      simpa [mutationsSize] using hb

theorem dispatchLoop_all_tick (handleID limit : Nat) :
    ∀ (tids : List Nat) (i : Nat),
      dispatchLoop handleID limit (fun _ => SelCase.tick) tids i =
        tids.map fun tid => { tableID := tid, handleID := handleID, limit := limit } := by
  intro tids
  induction tids with
  | nil => intro i; rfl
  | cons t rest ih =>
    intro i
    simp only [dispatchLoop, List.map_cons]
    rw [ih]

theorem lockFn_acceptAll (tid h : Nat) :
    lockFn acceptAllBatch tid h 3 = Except.ok 3 := rfl

theorem workerRun_acceptAll :
    ∀ (ts : List GTask) (acc : Nat), (∀ t ∈ ts, t.limit = 3) →
      workerRun acceptAllBatch ts acc = (acc + 3 * ts.length, none) := by
  intro ts
  induction ts with
  | nil => intro acc _; simp [workerRun]
  | cons t rest ih =>
    intro acc hall
    have ht : t.limit = 3 := hall t (by simp)
    simp only [workerRun, ht, lockFn_acceptAll]
    rw [ih (acc + 3) (fun x hx => hall x (List.mem_cons_of_mem t hx))]
    simp only [List.length_cons, Prod.mk.injEq, and_true]
    omega

/-! ### The claims -/

/-- C2: during the race window opened by `asyncGenerateLocksDuringGC` the
mock counter is seeded at `safeLockTs`; while it is still non-zero after `k`
calls, the next `getLockTs` returns the decremented counter — a value
strictly below `safeLockTs` — and successive returned values strictly
decrease. -/
theorem c2_race_window_timestamps_decrease_below_safeLockTs
    (safeLockTs k realTs : Nat) (hW : safeLockTs < UINT64_MOD)
    (hk : k < safeLockTs) :
    getLockTs (mockTsAfter safeLockTs k) realTs =
      (safeLockTs - (k + 1), safeLockTs - (k + 1)) ∧
    (getLockTs (mockTsAfter safeLockTs k) realTs).1 < safeLockTs ∧
    mockTsAfter safeLockTs (k + 1) < mockTsAfter safeLockTs k := by
  have hstate : mockTsAfter safeLockTs k = safeLockTs - k :=
    mockTsAfter_eq hW k (Nat.le_of_lt hk)
  have hne : mockTsAfter safeLockTs k ≠ 0 := by omega
  have hdec : mockDecrement (mockTsAfter safeLockTs k) = safeLockTs - (k + 1) := by
    rw [hstate, mockDecrement_eq (by omega) (by omega)]
    omega
  have hcall : getLockTs (mockTsAfter safeLockTs k) realTs =
      (safeLockTs - (k + 1), safeLockTs - (k + 1)) := by
    unfold getLockTs
    rw [if_neg hne, hdec]
  refine ⟨hcall, ?_, ?_⟩
  · rw [hcall]; omega
  · show mockDecrement (mockTsAfter safeLockTs k) < mockTsAfter safeLockTs k
    rw [hdec, hstate]; omega

theorem c2_race_window_witness :
    10 < UINT64_MOD ∧ 3 < 10 ∧
    (getLockTs (mockTsAfter 10 3) 77 = (10 - (3 + 1), 10 - (3 + 1)) ∧
     (getLockTs (mockTsAfter 10 3) 77).1 < 10 ∧
     mockTsAfter 10 (3 + 1) < mockTsAfter 10 3) :=
  ⟨by decide, by decide,
   c2_race_window_timestamps_decrease_below_safeLockTs 10 3 77 (by decide) (by decide)⟩

/-- C3: in the `CheckData` scan, a page with fewer locks than the scan limit
moves the cursor to the region's end key, a full page moves it to the key of
the last returned lock, and — provided every returned lock has a non-empty
key, as every real lock does — the loop breaks exactly when the cursor has
become empty, which only the shard-boundary jump can make it. -/
theorem c3_scan_cursor_advance_and_termination
    (store : List Nat → ScanPage) (safeLockTs fuel : Nat) (key : List Nat)
    (u r : List Lock)
    (hkeys : (store key).locks.all (fun l => !l.Key.isEmpty) = true) :
    ((store key).locks.length < scanLockLimit →
       nextScanKey (store key).locks (store key).endKey = (store key).endKey) ∧
    (¬ (store key).locks.length < scanLockLimit →
       nextScanKey (store key).locks (store key).endKey = lastLockKey (store key).locks) ∧
    (nextScanKey (store key).locks (store key).endKey = [] ↔
       (store key).locks.length < scanLockLimit ∧ (store key).endKey = []) ∧
    (nextScanKey (store key).locks (store key).endKey = [] →
       checkDataLoop store safeLockTs (fuel + 1) key u r =
         (u ++ (classifyLocks safeLockTs (store key).locks).2,
          r ++ (classifyLocks safeLockTs (store key).locks).1, true)) ∧
    (nextScanKey (store key).locks (store key).endKey ≠ [] →
       checkDataLoop store safeLockTs (fuel + 1) key u r =
         checkDataLoop store safeLockTs fuel
           (nextScanKey (store key).locks (store key).endKey)
           (u ++ (classifyLocks safeLockTs (store key).locks).2)
           (r ++ (classifyLocks safeLockTs (store key).locks).1)) := by
  have hne : ∀ l ∈ (store key).locks, l.Key ≠ [] := by
    rw [List.all_eq_true] at hkeys
    intro l hl
    have := hkeys l hl
    simpa [List.isEmpty_iff] using this
  refine ⟨?_, ?_, ?_, ?_, ?_⟩
  · intro hlt; unfold nextScanKey; rw [if_pos hlt]
  · intro hge; unfold nextScanKey; rw [if_neg hge]
  · by_cases hlt : (store key).locks.length < scanLockLimit
    · unfold nextScanKey
      rw [if_pos hlt]
      exact ⟨fun h => ⟨hlt, h⟩, fun h => h.2⟩
    · unfold nextScanKey
      rw [if_neg hlt]
      have hnil : (store key).locks ≠ [] := by
        intro h
        rw [h] at hlt
        exact hlt (by norm_num [scanLockLimit])
      have := lastLockKey_ne_nil (store key).locks hne hnil
      exact ⟨fun h => absurd h this, fun h => absurd h.1 hlt⟩
  · intro hempty
    rw [checkDataLoop_succ, if_pos (by rw [hempty]; rfl)]
  · intro hnonempty
    rw [checkDataLoop_succ, if_neg (by simpa [List.length_eq_zero] using hnonempty)]

theorem c3_scan_cursor_witness :
    ((storeC3 []).locks.all (fun l => !l.Key.isEmpty) = true) ∧
    (((storeC3 []).locks.length < scanLockLimit →
        nextScanKey (storeC3 []).locks (storeC3 []).endKey = (storeC3 []).endKey) ∧
     (¬ (storeC3 []).locks.length < scanLockLimit →
        nextScanKey (storeC3 []).locks (storeC3 []).endKey = lastLockKey (storeC3 []).locks) ∧
     (nextScanKey (storeC3 []).locks (storeC3 []).endKey = [] ↔
        (storeC3 []).locks.length < scanLockLimit ∧ (storeC3 []).endKey = []) ∧
     (nextScanKey (storeC3 []).locks (storeC3 []).endKey = [] →
        checkDataLoop storeC3 4 1 [] [] [] =
          ([] ++ (classifyLocks 4 (storeC3 []).locks).2,
           [] ++ (classifyLocks 4 (storeC3 []).locks).1, true)) ∧
     (nextScanKey (storeC3 []).locks (storeC3 []).endKey ≠ [] →
        checkDataLoop storeC3 4 1 [] [] [] =
          checkDataLoop storeC3 4 0
            (nextScanKey (storeC3 []).locks (storeC3 []).endKey)
            ([] ++ (classifyLocks 4 (storeC3 []).locks).2)
            ([] ++ (classifyLocks 4 (storeC3 []).locks).1))) :=
  ⟨by decide, c3_scan_cursor_advance_and_termination storeC3 4 0 [] [] [] (by decide)⟩

/-- C10: `CheckData` sends every scan-lock request with the literal page
limit 10 while the short-page comparison uses the constant
`scanLockLimit = 100`; hence whenever the store honours the request (at most
10 locks per page) — indeed whenever it returns fewer than 100 locks — the
cursor jumps to the region's end key, and the last-lock branch would require
a response of at least 100 locks. -/
theorem c10_request_limit_ten_vs_constant_hundred
    (safePoint : Nat) (startKey : List Nat) (page : ScanPage) :
    (mkScanLockRequest safePoint startKey).Limit = 10 ∧
    scanLockLimit = 100 ∧
    (page.locks.length ≤ (mkScanLockRequest safePoint startKey).Limit →
       nextScanKey page.locks page.endKey = page.endKey) ∧
    (¬ 100 ≤ page.locks.length → nextScanKey page.locks page.endKey = page.endKey) := by
  refine ⟨rfl, rfl, ?_, ?_⟩
  · intro h10
    unfold nextScanKey
    rw [if_pos ?_]
    have : (mkScanLockRequest safePoint startKey).Limit = 10 := rfl
    rw [this] at h10
    norm_num [scanLockLimit]
    omega
  · intro hlt
    unfold nextScanKey
    rw [if_pos ?_]
    norm_num [scanLockLimit]
    omega

/-- C4 (the code at the failing input): `getTs` does report environment-down
by answering `Except.ok 0` when the backoff budget is exhausted on the
recoverable error class; yet when the second `getTs` of a round — the safe
point acquisition at line 231 — answers 0 while the first answered 1, the
round does not exit cleanly: it proceeds into GC and finishes the round
(`Sum.inr`), because line 234 re-tests the stale first-round timestamp `ts`
instead of the just-assigned `c.safePoint`. -/
theorem c4_zero_safepoint_round_proceeds :
    getTsLoop (fun _ => PDResult.eofOrCanceled) false 0 0 = Except.ok 0 ∧
    envC4.ts2 0 = Except.ok 0 ∧
    startStep false envC4 0 (-1) = Sum.inr (-1) ∧
    startStep false envC4 0 (-1) ≠ Sum.inl ExitKind.clean := by
  refine ⟨rfl, rfl, by decide, by decide⟩

theorem c5_step (n : Nat) :
    startStep true envC5 n (-1) =
      if 50 ≤ n then Sum.inl (ExitKind.fail "green gc failed to run for over 50 times")
      else Sum.inr (-1) := by
  by_cases h : 50 ≤ n
  · rw [if_pos h]
    simp only [startStep, envC5, mkRoundEnv, gcPhase, gcAttemptGo]
    simp
    omega
  · rw [if_neg h]
    simp only [startStep, envC5, mkRoundEnv, gcPhase, gcAttemptGo]
    simp
    omega

theorem c5_loop_none :
    ∀ (fuel start : Nat), start + fuel ≤ 50 →
      startLoop true envC5 fuel start (-1) = none := by
  intro fuel
  induction fuel with
  | zero => intro start _; rfl
  | succ n ih =>
    intro start hle
    show (match startStep true envC5 start (-1) with
      | Sum.inl ek => some ek
      | Sum.inr lg => startLoop true envC5 n (start + 1) lg) = none
    rw [c5_step, if_neg (by omega)]
    exact ih (start + 1) (by omega)

theorem c5_loop_fail :
    ∀ (fuel start : Nat), start ≤ 50 → 50 < start + fuel →
      startLoop true envC5 fuel start (-1) =
        some (ExitKind.fail "green gc failed to run for over 50 times") := by
  intro fuel
  induction fuel with
  | zero => intro start h1 h2; omega
  | succ n ih =>
    intro start h1 h2
    show (match startStep true envC5 start (-1) with
      | Sum.inl ek => some ek
      | Sum.inr lg => startLoop true envC5 n (start + 1) lg) =
      some (ExitKind.fail "green gc failed to run for over 50 times")
    by_cases h : 50 ≤ start
    · rw [c5_step, if_pos h]
    · rw [c5_step, if_neg h]
      exact ih (start + 1) (by omega) (by omega)

/-- C5: with green GC enabled and every round's `resolveLocks` reporting
`physicalUsed = false` (and no other failure), the controller runs rounds
0 through 49 — the first fifty — without exiting, and exits with the
green-GC failure error in round 50, the 51st round. -/
theorem c5_green_gc_error_exactly_on_51st_round :
    startLoop true envC5 51 0 (-1) =
      some (ExitKind.fail "green gc failed to run for over 50 times") ∧
    (List.range 51).all
      (fun fuel => decide (startLoop true envC5 fuel 0 (-1) = none)) = true := by
  refine ⟨c5_loop_fail 51 0 (by omega) (by omega), ?_⟩
  rw [List.all_eq_true]
  intro fuel hf
  rw [List.mem_range] at hf
  simp only [decide_eq_true_eq]
  exact c5_loop_none fuel 0 (by omega)

/-- C6 (the code at the failing input): with two tables, if the dispatch
`select` observes `ctx.Done()` on the first iteration and the ticker fires
on the second, the task for the second table is still enqueued — the `break`
at line 349 leaves only the `select`, not the dispatch loop — contradicting
the claim that no task is enqueued after cancellation is observed. -/
theorem c6_task_enqueued_after_cancel_observed :
    schedC6 0 = SelCase.ctxDone ∧
    dispatchedTasks [11, 22] 7 3 schedC6 =
      [{ tableID := 22, handleID := 7, limit := 3 }] := by
  refine ⟨rfl, by decide⟩

/-- C7: when the prewrite response carries per-key conflict errors (and the
attempt otherwise reaches the response), `lockBatch` returns a locked count
of exactly zero with a nil error: the whole batch loses credit and the
conflict is not surfaced as a failure. -/
theorem c7_key_errors_zero_locked_nil_error
    (env : Nat → AttemptEnv) (keys : List (List Nat)) (t fuel : Nat)
    (h0 : (env 0).locateErr = none)
    (h1 : (env 0).startTs = Except.ok t)
    (h2 : t ≠ 0)
    (h3 : (env 0).sendErr = none)
    (h4 : (env 0).regionErr = none)
    (h5 : (env 0).respMissing = false)
    (h6 : (env 0).keyErrors ≠ [])
    (h7 : keys ≠ [])
    (h8 : buildMutations (env 0).contains keys ≠ []) :
    lockBatch env keys (fuel + 1) = Except.ok 0 := by
  have hklen : keys.length ≠ 0 := by simpa [List.length_eq_zero] using h7
  have hmlen : (buildMutations (env 0).contains keys).length ≠ 0 := by
    simpa [List.length_eq_zero] using h8
  have helen : (env 0).keyErrors.length ≠ 0 := by
    simpa [List.length_eq_zero] using h6
  unfold lockBatch
  rw [if_neg hklen]
  unfold lockBatchLoop
  simp only [h0, h1, h3, h4, h5, if_neg h2, if_neg hmlen, Bool.false_eq_true,
    if_false, if_pos helen]

theorem c7_key_errors_witness :
    envC7.locateErr = none ∧
    envC7.startTs = Except.ok 7 ∧
    (7 : Nat) ≠ 0 ∧
    envC7.sendErr = none ∧
    envC7.regionErr = none ∧
    envC7.respMissing = false ∧
    envC7.keyErrors ≠ [] ∧
    ([[1, 2]] : List (List Nat)) ≠ [] ∧
    buildMutations envC7.contains [[1, 2]] ≠ [] ∧
    lockBatch (fun _ => envC7) [[1, 2]] (0 + 1) = Except.ok 0 :=
  ⟨rfl, rfl, by decide, rfl, rfl, rfl, by decide, by decide, by decide,
   c7_key_errors_zero_locked_nil_error (fun _ => envC7) [[1, 2]] 7 0
     rfl rfl (by decide) rfl rfl rfl (by decide) (by decide) (by decide)⟩

/-- C8 (amended): the mutations of one prewrite request are a prefix of the
input keys, every mutation's key lies in the primary key's region, and the
accumulated byte size stays under the 1 MiB budget up to (but not
necessarily including) the final mutation — the size check at line 427 runs
after the append, so only the last mutation may carry the total to or past
the budget. -/
theorem c8_batch_in_region_size_bounded_except_last
    (contains : List Nat → Bool) (keys : List (List Nat)) :
    (buildMutations contains keys).map Mutation.key =
      keys.take (buildMutations contains keys).length ∧
    (buildMutations contains keys).all (fun m => contains m.key) = true ∧
    mutationsSize (buildMutations contains keys).dropLast < maxBatchSize := by
  refine ⟨buildMutationsGo_keys_take contains keys 0,
          buildMutationsGo_contains contains keys 0, ?_⟩
  have h := buildMutationsGo_size contains keys 0 (by norm_num [maxBatchSize])
  simpa [buildMutations] using h

theorem hugeKey_length : hugeKey.length = maxBatchSize := by
  simp [hugeKey]

theorem single_full_key_batch_not_under_budget (k : List Nat)
    (hk : k.length = maxBatchSize) :
    ¬ mutationsSize (buildMutations containsAll [k]) < maxBatchSize := by
  have h1 : buildMutations containsAll [k] = [{ key := k, value := vByte }] := by
    unfold buildMutations buildMutationsGo containsAll
    rw [if_pos rfl, if_pos ?_]
    rw [hk]
    norm_num [vByte]
  rw [h1]
  have h2 : mutationsSize [{ key := k, value := vByte }] = k.length + vByte.length + 0 := by
    simp only [mutationsSize, List.map_cons, List.map_nil, List.sum_cons, List.sum_nil]
  rw [h2, hk]
  norm_num [vByte]

/-- C8 (counterexample to the claim as stated): a batch containing a single
in-region key of 1 MiB is sent whole, so its total byte size does not stay
under the 1 MiB budget. -/
theorem c8_budget_counterexample :
    ¬ mutationsSize (buildMutations containsAll [hugeKey]) < maxBatchSize :=
  single_full_key_batch_not_under_budget hugeKey hugeKey_length

/-- C9: with five partitions, three locks per partition and two workers,
when every lock write is accepted by the store and no cancellation occurs
(every dispatch iteration fires the ticker), the generator reports exactly
15 locked keys and a nil error — whichever way the worker pool splits the
tasks. -/
theorem c9_five_partitions_fifteen_locks
    (tableIDs : List Nat) (handleID : Nat) (w1 w2 : List GTask)
    (hlen : tableIDs.length = 5)
    (hperm : (w1 ++ w2).Perm (dispatchedTasks tableIDs handleID 3 (fun _ => SelCase.tick))) :
    aggregate [workerRun acceptAllBatch w1 0, workerRun acceptAllBatch w2 0] =
      (15, none) := by
  have htasks : dispatchedTasks tableIDs handleID 3 (fun _ => SelCase.tick) =
      tableIDs.map fun tid => { tableID := tid, handleID := handleID, limit := 3 } :=
    dispatchLoop_all_tick handleID 3 tableIDs 0
  have hmem : ∀ t ∈ w1 ++ w2, t.limit = 3 := by
    intro t htm
    have hin := hperm.mem_iff.mp htm
    rw [htasks] at hin
    obtain ⟨tid, _, rfl⟩ := List.mem_map.mp hin
    rfl
  have h1 : workerRun acceptAllBatch w1 0 = (0 + 3 * w1.length, none) :=
    workerRun_acceptAll w1 0 (fun x hx => hmem x (List.mem_append_left w2 hx))
  have h2 : workerRun acceptAllBatch w2 0 = (0 + 3 * w2.length, none) :=
    workerRun_acceptAll w2 0 (fun x hx => hmem x (List.mem_append_right w1 hx))
  have hlens : w1.length + w2.length = 5 := by
    have hl := hperm.length_eq
    rw [htasks] at hl
    simpa [hlen] using hl
  rw [h1, h2]
  simp only [aggregate, Prod.mk.injEq]
  exact ⟨by omega, trivial⟩

theorem c9_fifteen_locks_witness :
    ([1, 2, 3, 4, 5] : List Nat).length = 5 ∧
    (([{ tableID := 1, handleID := 10, limit := 3 },
       { tableID := 2, handleID := 10, limit := 3 }] ++
      [{ tableID := 3, handleID := 10, limit := 3 },
       { tableID := 4, handleID := 10, limit := 3 },
       { tableID := 5, handleID := 10, limit := 3 }]) : List GTask).Perm
      (dispatchedTasks [1, 2, 3, 4, 5] 10 3 (fun _ => SelCase.tick)) ∧
    aggregate
      [workerRun acceptAllBatch
         [{ tableID := 1, handleID := 10, limit := 3 },
          { tableID := 2, handleID := 10, limit := 3 }] 0,
       workerRun acceptAllBatch
         [{ tableID := 3, handleID := 10, limit := 3 },
          { tableID := 4, handleID := 10, limit := 3 },
          { tableID := 5, handleID := 10, limit := 3 }] 0] = (15, none) :=
  ⟨by decide, by decide,
   c9_five_partitions_fifteen_locks [1, 2, 3, 4, 5] 10
     [{ tableID := 1, handleID := 10, limit := 3 },
      { tableID := 2, handleID := 10, limit := 3 }]
     [{ tableID := 3, handleID := 10, limit := 3 },
      { tableID := 4, handleID := 10, limit := 3 },
      { tableID := 5, handleID := 10, limit := 3 }]
     (by decide) (by decide)⟩

/-- C1: every lock of a scanned page goes to the safe side exactly when its
owning timestamp is below `safeLockTs` and to the unsafe side otherwise;
over the whole scan the unsafe accumulator holds only locks with timestamp
at least `safeLockTs` and the locks handed to batch resolution only locks
strictly below it (so an unsafe lock is never resolved); and a round whose
`CheckData` reports a non-empty unsafe set makes `Start` return the
check-data failure error. -/
theorem c1_checker_classification_and_round_failure
    (safeLockTs : Nat) (info : List Lock) (store : List Nat → ScanPage) (fuel : Nat)
    (enable used : Bool) (t sp g : Nat) (unsafeLocks : List Lock)
    (errO : Option String) (n : Nat) (lastG : Int)
    (ht : t ≠ 0) (hu : unsafeLocks ≠ [])
    (hg : ¬ (enable = true ∧ (n : Int) - (if used = true then (n : Int) else lastG) > 50)) :
    classifyLocks safeLockTs info =
      (info.filter fun l => decide (l.TxnID < safeLockTs),
       info.filter fun l => !decide (l.TxnID < safeLockTs)) ∧
    (checkData store safeLockTs fuel).1.all
      (fun l => decide (safeLockTs ≤ l.TxnID)) = true ∧
    (checkData store safeLockTs fuel).2.1.all
      (fun l => decide (l.TxnID < safeLockTs)) = true ∧
    startStep enable (mkRoundEnv t sp g used (unsafeLocks, errO)) n lastG =
      Sum.inl (ExitKind.fail "green GC check data failed") := by
  have hacc := checkDataLoop_acc_all store safeLockTs fuel [] [] [] rfl rfl
  refine ⟨classifyLocks_eq_filter safeLockTs info, hacc.1, hacc.2, ?_⟩
  have hulen : unsafeLocks.length ≠ 0 := by simpa [List.length_eq_zero] using hu
  simp [startStep, mkRoundEnv, gcPhase, gcAttemptGo, ht, hg, hulen]

theorem c1_checker_classification_witness :
    (1 : Nat) ≠ 0 ∧
    ([{ TxnID := 12, Key := [2] }] : List Lock) ≠ [] ∧
    ¬ (false = true ∧
        ((0 : Nat) : Int) - (if false = true then ((0 : Nat) : Int) else (-1 : Int)) > 50) ∧
    (classifyLocks 10 [{ TxnID := 3, Key := [1] }, { TxnID := 12, Key := [2] }] =
      ([{ TxnID := 3, Key := [1] }, { TxnID := 12, Key := [2] }].filter
         fun l => decide (l.TxnID < 10),
       [{ TxnID := 3, Key := [1] }, { TxnID := 12, Key := [2] }].filter
         fun l => !decide (l.TxnID < 10)) ∧
     (checkData storeC1 10 1).1.all (fun l => decide (10 ≤ l.TxnID)) = true ∧
     (checkData storeC1 10 1).2.1.all (fun l => decide (l.TxnID < 10)) = true ∧
     startStep false (mkRoundEnv 1 2 15 false ([{ TxnID := 12, Key := [2] }], none)) 0 (-1) =
       Sum.inl (ExitKind.fail "green GC check data failed")) :=
  ⟨by decide, by decide, by decide,
   c1_checker_classification_and_round_failure 10
     [{ TxnID := 3, Key := [1] }, { TxnID := 12, Key := [2] }] storeC1 1
     false false 1 2 15 [{ TxnID := 12, Key := [2] }] none 0 (-1)
     (by decide) (by decide) (by decide)⟩

end ResolveLock
